import Mathlib

/-!
Verification of the polytwisters cross-section engine.

We give a shallow embedding of the core algorithms of the repository:

* the normalizer `get_scale_and_max_w` from
  `src/polytwisters/core/hard_polytwister_section.py` (grid search plus
  bisection over an abstract extent function `D`);
* the cycloplane cross-section geometry `create_cycloplane` /
  `_create_south_pole_cycloplane` as subsets of `ℝ × ℝ × ℝ`;
* the hard realizer's tree traversal (`Realizer.traverse`, `safe_intersect`,
  `safe_cut`, `safe_union`, `make_rotated_copies`, `bubble`) over an abstract
  Boolean solid kernel;
* the soft realizer's hyperplane slicer `get_cross_section` from
  `src/polytwisters/core/soft_polytwister_section.py`.

Real-number measurements returned by the delegated geometry libraries are
modelled as exact rationals; the branching logic of the Python code is
translated verbatim.
-/

namespace Polytwisters

/-! ## Normalizer (`get_scale_and_max_w`)

`D` abstracts `get_max_distance_from_origin polytwister`: the maximum distance
from the origin over the vertices of the cross section at a given `w`, `0` if
the mesh is empty.  The Python loops are unbounded; we model them with an
explicit fuel parameter, `none` standing for non-termination within the given
fuel. -/

/-- The grid search of `get_scale_and_max_w`: starting from the initial upper
bound, add `1` to `w` until `D w = 0`.  Mirrors the `while True` loop at
`hard_polytwister_section.py:275`. -/
def gridSearch (D : ℚ → ℚ) : Nat → ℚ → Option ℚ
  | 0, _ => none
  | fuel + 1, ub => if D ub = 0 then some ub else gridSearch D fuel (ub + 1)

/-- The bisection loop of `get_scale_and_max_w`
(`hard_polytwister_section.py:284`): while `ub - lb > 0.01`, test the
midpoint; if `D mid > 0` move the lower bound up, else move the upper bound
down.  The returned value is the final upper bound. -/
def bisect (D : ℚ → ℚ) : Nat → ℚ → ℚ → Option ℚ
  | fuel, lb, ub =>
    if ub - lb ≤ 1 / 100 then some ub
    else
      match fuel with
      | 0 => none
      | fuel + 1 =>
        let mid := (lb + ub) / 2
        if 0 < D mid then bisect D fuel mid ub else bisect D fuel lb mid

/-- Embeds `get_scale_and_max_w` (`hard_polytwister_section.py:224`): fail if
`D 0 = 0`; otherwise `scale = 1 / D 0`, grid search upward from `D 0 * 2`,
then bisect between `0` and the grid result.  Loop non-termination within the
fuel is modelled as `Except.error none`-free: we use `Option` around the
result pair. -/
def getScaleAndMaxW (D : ℚ → ℚ) (fuelGrid fuelBis : Nat) :
    Except String (Option (ℚ × ℚ)) :=
  let d0 := D 0
  if d0 = 0 then .error "Cross section at w = 0 is empty, something is wrong."
  else
    let scale := 1 / d0
    match gridSearch D fuelGrid (d0 * 2) with
    | none => .ok none
    | some ub =>
      match bisect D fuelBis 0 ub with
      | none => .ok none
      | some maxW => .ok (some (scale, maxW))

/-- A concrete extent function used to exercise the normalizer: positive below
`1/1000`, zero from `1/1000` on (chosen so the searches terminate in a few
steps). -/
def Dex (x : ℚ) : ℚ := if x < 1 / 1000 then 1 / 1000 else 0

/-! ## Cycloplane cross-section geometry (`create_cycloplane`)

Solids are modelled as subsets of `ℝ × ℝ × ℝ`; the CadQuery primitives and
affine transforms of `hard_polytwister_section.py` become set images.  The
Python `if`/`else` branches are rendered as disjoint disjunctions of
propositions (avoiding classical `Decidable` instances on real comparisons);
the branch conditions are copied verbatim. -/

/-- A point of the 3-dimensional cross-section space. -/
abbrev Pt := ℝ × ℝ × ℝ

/-- Constant `LARGE = 100.0` (`hard_polytwister_section.py:18`): the large-but-finite
stand-in for an infinite extent. -/
noncomputable def LARGE : ℝ := 100

/-- Constant `EPSILON = 1e-3` (`hard_polytwister_section.py:19`). -/
noncomputable def EPSILON : ℝ := 1 / 1000

/-- Embeds `cadquery.Workplane().cylinder(height, radius)`: a solid cylinder about
the z-axis, centered at the origin. -/
def cylinderZ (height radius : ℝ) : Set Pt :=
  {p | p.1 ^ 2 + p.2.1 ^ 2 ≤ radius ^ 2 ∧ |p.2.2| ≤ height / 2}

/-- Embeds `rotate((0,0,0), (1,0,0), degrees α)`: right-handed rotation about the
x-axis by `α` radians (the code converts to degrees only for CadQuery's
argument convention). -/
noncomputable def rotX (α : ℝ) (p : Pt) : Pt :=
  (p.1, Real.cos α * p.2.1 - Real.sin α * p.2.2,
    Real.sin α * p.2.1 + Real.cos α * p.2.2)

/-- Embeds `rotate((0,0,0), (0,1,0), degrees α)`: right-handed rotation about the
y-axis — the symmetry axis of every catalog polytwister — by `α` radians. -/
noncomputable def rotY (α : ℝ) (p : Pt) : Pt :=
  (Real.cos α * p.1 + Real.sin α * p.2.2, p.2.1,
    -Real.sin α * p.1 + Real.cos α * p.2.2)

/-- Embeds `scale_workplane(part, s, 1, 1)`: scaling along the x-axis. -/
noncomputable def scaleX (s : ℝ) (p : Pt) : Pt := (s * p.1, p.2.1, p.2.2)

/-- Embeds `translate((t, 0, 0))`: translation along the x-axis. -/
noncomputable def translX (t : ℝ) (p : Pt) : Pt := (p.1 + t, p.2.1, p.2.2)

/-- Embeds `_create_south_pole_cycloplane(w)` (`hard_polytwister_section.py:78`):
empty when `|w| ≥ 1`, otherwise a cylinder of radius `LARGE` and height
`2·√(1-w²)`, rotated from the z-axis onto the y-axis. -/
def createSouthPoleCycloplane (w : ℝ) : Set Pt :=
  {p | |w| < 1 ∧
    p ∈ rotX (Real.pi / 2) '' cylinderZ (2 * Real.sqrt (1 - w * w)) LARGE}

/-- Embeds `create_cycloplane(w, zenith, azimuth)` (`hard_polytwister_section.py:40`):
with `θ = zenith/2` and `φ = azimuth`, the south-pole branch when
`|θ - π/2| < EPSILON`, otherwise the `cylinder(LARGE, 1)` aligned from the
z-axis onto the y-axis, scaled by `1/cos θ` along x, translated by
`w·tan θ` along x, rotated by `-θ` about x, and finally rotated by `φ`
about y. -/
def createCycloplane (w zenith azimuth : ℝ) : Set Pt :=
  {p | (|zenith / 2 - Real.pi / 2| < EPSILON ∧
          p ∈ createSouthPoleCycloplane w) ∨
       (¬ |zenith / 2 - Real.pi / 2| < EPSILON ∧
          p ∈ rotY azimuth ''
              (rotX (-(zenith / 2)) ''
                (translX (w * Real.tan (zenith / 2)) ''
                  (scaleX (1 / Real.cos (zenith / 2)) ''
                    (rotX (Real.pi / 2) '' cylinderZ LARGE 1)))))}

/-- Modelled from the spec, for comparison with `createCycloplane` (claim C2):
the generic cross-section as §4.2 words it, namely a unit-radius large-extent
cylinder about an axis *transverse* to the symmetry axis (the z-axis here,
the base cylinder's own axis), with only the four listed transforms applied
in the listed order. -/
def specTransverseCycloplane (w zenith azimuth : ℝ) : Set Pt :=
  rotY azimuth ''
    (rotX (-(zenith / 2)) ''
      (translX (w * Real.tan (zenith / 2)) ''
        (scaleX (1 / Real.cos (zenith / 2)) '' cylinderZ LARGE 1)))

/-- The unit-radius cylinder of extent `LARGE` about the y-axis (the symmetry
axis): the actual base primitive of the generic branch after the alignment
rotation. -/
def cylinderAlongY : Set Pt :=
  {p | p.1 ^ 2 + p.2.2 ^ 2 ≤ 1 ∧ |p.2.1| ≤ LARGE / 2}

/-- The infinite slab of §4.2: half-thickness `√(1-w²)` about the origin,
oriented along the symmetry axis (y), of transverse extent `LARGE`. -/
def slab (w : ℝ) : Set Pt :=
  {p | p.1 ^ 2 + p.2.2 ^ 2 ≤ LARGE ^ 2 ∧ |p.2.1| ≤ Real.sqrt (1 - w * w)}

/-! ## Hard realizer traversal (`Realizer.traverse`)

The CadQuery workplane and its Boolean operations are delegated library
state; we model them by an abstract kernel.  A kernel operation that raises
`ValueError` is modelled as `Except.error`.  `Realizer.traverse` returns, in
Python, either a single part, a list of parts (from `rotated_copies`), or
`None` (a Boolean node whose fold body never ran); `TRes` mirrors the three
cases.  A Python crash from feeding `None`/a list where a part is expected
is modelled by the distinguished error `TErr.crash` (such states are never
reached by well-formed catalog trees). -/

/-- The delegated solid-modeling kernel: `cadquery.Workplane` values `S`,
kernel exceptions `E`.  `isEmpty` is `is_empty` (`len(part.solids().vals())
== 0`), `emptyW` is `cadquery.Workplane()`, and `rotYdeg` is
`part.rotate((0,0,0), (0,1,0), degrees)`; `mkCyclo` abstracts
`create_cycloplane(w, zenith, azimuth)` (whose geometry is modelled
separately above). -/
structure Kernel (S : Type) (E : Type) where
  isEmpty : S → Bool
  emptyW : S
  intersectK : S → S → Except E S
  cutK : S → S → Except E S
  unionK : S → S → Except E S
  rotYdeg : ℚ → S → S
  mkCyclo : ℚ → ℚ → ℚ → S

/-- Errors escaping `Realizer.traverse`. -/
inductive TErr (E : Type) where
  | kernel (e : E)
  | invalidNode (tag : String)
  | crash

/-- The polytwister tree.  The Python trees are string-tagged dicts; the tag
dispatch in `traverse` recognises the five known tags, so any other dict is
represented by `unknown`. -/
inductive Node where
  | cycloplane (zenith azimuth : ℚ)
  | rotatedCopies (operand : Node) (order : Nat)
  | intersection (operands : List Node)
  | difference (operands : List Node)
  | union (operands : List Node)
  | unknown (tag : String)

/-- A traversal result: a part, a list of parts, or Python `None`. -/
inductive TRes (S : Type) where
  | single (part : S)
  | multiple (parts : List S)
  | null

/-- The Python `return result` at the end of a Boolean branch: `None` stays
`None`, a part is returned as such. -/
def optToRes {S : Type} : Option S → TRes S
  | none => .null
  | some p => .single p

/-- Embeds `bubble(x)` (`hard_polytwister_section.py:99`): wrap a non-list in a
one-element list.  `bubble(None) == [None]` in Python, hence the
`Option`-valued elements. -/
def bubble {S : Type} : TRes S → List (Option S)
  | .single p => [some p]
  | .multiple l => l.map some
  | .null => [none]

variable {S E : Type}

/-- Embeds `safe_intersect` (`hard_polytwister_section.py:109`): a `ValueError` from
the kernel is caught and an empty workplane returned. -/
def safeIntersect (k : Kernel S E) (a b : S) : S :=
  match k.intersectK a b with
  | .ok s => s
  | .error _ => k.emptyW

/-- Embeds `safe_cut` (`hard_polytwister_section.py:118`): pre-filter empty operands;
a kernel exception on non-empty operands is NOT caught. -/
def safeCut (k : Kernel S E) (a b : S) : Except E S :=
  if k.isEmpty a then .ok k.emptyW
  else if k.isEmpty b then .ok a
  else k.cutK a b

/-- Embeds `safe_union` (`hard_polytwister_section.py:127`): pre-filter empty
operands; a kernel exception on non-empty operands is NOT caught. -/
def safeUnion (k : Kernel S E) (a b : S) : Except E S :=
  if k.isEmpty a then .ok b
  else if k.isEmpty b then .ok a
  else k.unionK a b

/-- Embeds `make_rotated_copies(part, n)` (`hard_polytwister_section.py:91`): `n`
copies, the `i`-th rotated by `i·2π/n` about the y-axis (the code passes
`math.degrees(i * 2 * math.pi / n) = i·360/n` degrees to CadQuery). -/
def makeRotatedCopies (k : Kernel S E) (part : S) (n : Nat) : List S :=
  (List.range n).map (fun i : Nat => k.rotYdeg ((i : ℚ) * 360 / (n : ℚ)) part)

/-- The inner fold of a Boolean branch: `result = operand` the first time,
`result = safe_op(result, operand)` afterwards.  A `None` operand reaching a
`safe_op` call is a Python crash. -/
def foldOperands (step : S → S → Except (TErr E) S) :
    Option S → List (Option S) → Except (TErr E) (Option S)
  | acc, [] => .ok acc
  | none, o :: rest => foldOperands step o rest
  | some _, none :: _ => .error .crash
  | some r, some o :: rest =>
    match step r o with
    | .error e => .error e
    | .ok r2 => foldOperands step (some r2) rest

mutual

/-- Embeds `Realizer.traverse` (`hard_polytwister_section.py:146`). -/
def traverse (k : Kernel S E) (w : ℚ) : Node → Except (TErr E) (TRes S)
  | .cycloplane zenith azimuth => .ok (.single (k.mkCyclo w zenith azimuth))
  | .rotatedCopies op n =>
    match traverse k w op with
    | .error e => .error e
    | .ok (.single p) => .ok (.multiple (makeRotatedCopies k p n))
    | .ok (.multiple _) => .error .crash
    | .ok .null => .error .crash
  | .intersection ops =>
    (traverseFold k w (fun a b => .ok (safeIntersect k a b)) none ops).map optToRes
  | .difference ops =>
    (traverseFold k w (fun a b => (safeCut k a b).mapError TErr.kernel) none ops).map
      optToRes
  | .union ops =>
    (traverseFold k w (fun a b => (safeUnion k a b).mapError TErr.kernel) none ops).map
      optToRes
  | .unknown tag => .error (.invalidNode tag)

/-- The `for child in node["operands"]` loop shared by the three Boolean
branches, folding over each child's bubbled result. -/
def traverseFold (k : Kernel S E) (w : ℚ) (step : S → S → Except (TErr E) S) :
    Option S → List Node → Except (TErr E) (Option S)
  | acc, [] => .ok acc
  | acc, c :: cs =>
    match traverse k w c with
    | .error e => .error e
    | .ok r =>
      match foldOperands step acc (bubble r) with
      | .error e => .error e
      | .ok acc2 => traverseFold k w step acc2 cs

end

/-- Embeds `Realizer.__init__` (`hard_polytwister_section.py:138`): the requested
`w` is replaced by `EPSILON = 1e-3` unless `|w| > EPSILON`. -/
def realizerW (w : ℚ) : ℚ := if |w| > 1 / 1000 then w else 1 / 1000

/-- Embeds `make_polytwister_cross_section(polytwister, w)`
(`hard_polytwister_section.py:191`): realize the tree at the clamped `w`. -/
def makePolytwisterCrossSection (k : Kernel S E) (tree : Node) (w : ℚ) :
    Except (TErr E) (TRes S) :=
  traverse k (realizerW w) tree

/-! ## Soft realizer slicer (`get_cross_section`)

4D points are rationals `(x, y, z, w)`; the w-coordinate (`p[-1]` in the
code) is the last component.  The delegated 3D convex hull
(`scipy.spatial.ConvexHull`, whose `QhullError` is modelled as
`Except.error`) is a parameter. -/

/-- A 4D point. -/
abbrev Pt4 := ℚ × ℚ × ℚ × ℚ

/-- A sliced 3D point (rational model). -/
abbrev Pt3Q := ℚ × ℚ × ℚ

/-- A 4D convex hull: `points` and tetrahedral `simplices` (indices into
`points`), as produced by `scipy.spatial.ConvexHull`. -/
structure Hull4 where
  points : List Pt4
  simplices : List (Nat × Nat × Nat × Nat)

/-- The w-coordinate `p[-1]`. -/
def wCoord (p : Pt4) : ℚ := p.2.2.2

/-- The projection `p[:-1]` onto the 3-space. -/
def proj3 (p : Pt4) : Pt3Q := (p.1, p.2.1, p.2.2.1)

/-- Linear interpolation `p = p_1 + (p_2 - p_1) * t`. -/
def lerp4 (p1 p2 : Pt4) (t : ℚ) : Pt4 :=
  (p1.1 + (p2.1 - p1.1) * t, p1.2.1 + (p2.2.1 - p1.2.1) * t,
    p1.2.2.1 + (p2.2.2.1 - p1.2.2.1) * t, p1.2.2.2 + (p2.2.2.2 - p1.2.2.2) * t)

/-- Embeds `np.allclose(w_1, w_2)` for scalars: `|a - b| ≤ atol + rtol·|b|` with
`atol = 1e-8`, `rtol = 1e-5`. -/
def allclose (a b : ℚ) : Bool :=
  decide (|a - b| ≤ 1 / 100000000 + (1 / 100000) * |b|)

/-- Embeds `itertools.combinations(range(4), 2)`: the six edges of a tetrahedron. -/
def edgePairs : List (Nat × Nat) := [(0, 1), (0, 2), (0, 3), (1, 2), (1, 3), (2, 3)]

/-- Embeds `simplex_vertices[i, :]`: the `i`-th vertex (0–3) of a simplex, fetched
from the hull's point array. -/
def simplexVertex (pts : List Pt4) (s : Nat × Nat × Nat × Nat) (i : Nat) : Pt4 :=
  match i with
  | 0 => pts.getD s.1 (0, 0, 0, 0)
  | 1 => pts.getD s.2.1 (0, 0, 0, 0)
  | 2 => pts.getD s.2.2.1 (0, 0, 0, 0)
  | _ => pts.getD s.2.2.2 (0, 0, 0, 0)

/-- The per-edge emission rule of the slice loop
(`soft_polytwister_section.py:85`–`109`): half-open bracket test, coplanar
double emission within `allclose` tolerance, else linear interpolation. -/
def edgePoints (w : ℚ) (p1 p2 : Pt4) : List Pt3Q :=
  let w1 := wCoord p1
  let w2 := wCoord p2
  if (w1 ≤ w ∧ w < w2) ∨ (w2 ≤ w ∧ w < w1) then
    if allclose w1 w2 then [proj3 p1, proj3 p2]
    else [proj3 (lerp4 p1 p2 ((w - w1) / (w2 - w1)))]
  else []

/-- The double loop of `get_cross_section`: all six edges of every simplex. -/
def collectCrossSectionPoints (hull : Hull4) (w : ℚ) : List Pt3Q :=
  hull.simplices.flatMap fun s =>
    edgePairs.flatMap fun ij =>
      edgePoints w (simplexVertex hull.points s ij.1) (simplexVertex hull.points s ij.2)

/-- The cosmetic 90° rotation in the yz-plane
(`soft_polytwister_section.py:115`): `(x, y, z) ↦ (x, -z, y)`. -/
def rotYZ (p : Pt3Q) : Pt3Q := (p.1, -p.2.2, p.2.1)

/-- Embeds `get_cross_section(hull, w)` (`soft_polytwister_section.py:73`): collect
slice points; fewer than 4 points means an empty cross-section (`None`);
otherwise rotate and take the delegated 3D hull, a `QhullError` also giving
`None`. -/
def getCrossSection {H HE : Type} (hull3d : List Pt3Q → Except HE H)
    (hull : Hull4) (w : ℚ) : Option H :=
  let pts := collectCrossSectionPoints hull w
  if pts.length < 4 then none
  else
    match hull3d (pts.map rotYZ) with
    | .ok h => some h
    | .error _ => none

/-! ## Concrete instances for witnesses -/

/-- A toy concrete kernel for witnesses: solids are lists of tags; the
intersect operation raises on an empty first operand (as CadQuery's does). -/
def CKernel : Kernel (List Nat) Nat where
  isEmpty := List.isEmpty
  emptyW := []
  intersectK := fun a b => if a.isEmpty then .error 0 else .ok (a ++ b)
  cutK := fun a _ => .ok a
  unionK := fun a b => .ok (a ++ b)
  rotYdeg := fun _ s => s
  mkCyclo := fun _ _ _ => [1]

/-- A toy kernel whose Boolean operations always fail, exercising the
error-recovery paths. -/
def FKernel : Kernel (List Nat) Nat where
  isEmpty := List.isEmpty
  emptyW := []
  intersectK := fun _ _ => .error 9
  cutK := fun _ _ => .error 7
  unionK := fun _ _ => .error 8
  rotYdeg := fun _ s => s
  mkCyclo := fun _ _ _ => [1]

/-- A point-free 4D hull. -/
def hullEmpty : Hull4 := ⟨[], []⟩

/-- A 3D hull delegate that always reports degenerate input. -/
def hull3dFail : List Pt3Q → Except Nat Unit := fun _ => .error 0

/-- Grid search characterisation: a successful grid search returns
`start + k` for the least natural `k` at which `D` vanishes. -/
theorem gridSearch_spec (D : ℚ → ℚ) (fuel : Nat) (start ub : ℚ)
    (h : gridSearch D fuel start = some ub) :
    ∃ k : Nat, k < fuel ∧ ub = start + k ∧ D (start + k) = 0 ∧
      ∀ j : Nat, j < k → D (start + j) ≠ 0 := by
  induction fuel generalizing start with
  | zero => simp [gridSearch] at h
  | succ n ih =>
    rw [gridSearch] at h
    by_cases h0 : D start = 0
    · refine ⟨0, Nat.succ_pos n, ?_, ?_, ?_⟩
      · simpa [h0] using h.symm
      · simpa using h0
      · intro j hj; omega
    · rw [if_neg h0] at h
      obtain ⟨k, hk, hub, hD, hmin⟩ := ih (start + 1) h
      refine ⟨k + 1, by omega, ?_, ?_, ?_⟩
      · rw [hub]; push_cast; ring
      · have : start + 1 + (k : ℚ) = start + ((k : ℚ) + 1) := by ring
        rw [this] at hD
        simpa using hD
      · intro j hj
        match j with
        | 0 => simpa using h0
        | j + 1 =>
          have := hmin j (by omega)
          have e : start + 1 + (j : ℚ) = start + ((j : ℚ) + 1) := by ring
          rw [e] at this
          simpa using this

/-- Bisection invariant: if `D` is nonnegative (it is a max of distances, or
`0` for an empty mesh), the upper bound was measured zero and the lower bound
positive, then a successful bisection returns a point where `D` vanishes,
lying within `1/100` above a point where `D` is positive. -/
theorem bisect_spec (D : ℚ → ℚ) (hD : ∀ x, 0 ≤ D x) (fuel : Nat) (lb ub m : ℚ)
    (hlb : 0 < D lb) (hub : D ub = 0) (hle : lb ≤ ub)
    (h : bisect D fuel lb ub = some m) :
    D m = 0 ∧ ∃ l : ℚ, lb ≤ l ∧ 0 < D l ∧ l ≤ m ∧ m - l ≤ 1 / 100 := by
  induction fuel generalizing lb ub with
  | zero =>
    rw [bisect] at h
    by_cases hw : ub - lb ≤ 1 / 100
    · rw [if_pos hw] at h
      obtain rfl : ub = m := by simpa using h
      exact ⟨hub, lb, le_refl lb, hlb, hle, hw⟩
    · rw [if_neg hw] at h; simp at h
  | succ n ih =>
    rw [bisect] at h
    by_cases hw : ub - lb ≤ 1 / 100
    · rw [if_pos hw] at h
      obtain rfl : ub = m := by simpa using h
      exact ⟨hub, lb, le_refl lb, hlb, hle, hw⟩
    · rw [if_neg hw] at h
      simp only at h
      set mid := (lb + ub) / 2 with hmid
      have hmid_ge : lb ≤ mid := by rw [hmid]; linarith
      have hmid_le : mid ≤ ub := by rw [hmid]; linarith
      by_cases hd : 0 < D mid
      · rw [if_pos hd] at h
        obtain ⟨h1, l, hl1, hl2, hl3, hl4⟩ := ih mid ub hd hub hmid_le h
        exact ⟨h1, l, le_trans hmid_ge hl1, hl2, hl3, hl4⟩
      · rw [if_neg hd] at h
        have hz : D mid = 0 := le_antisymm (not_lt.mp hd) (hD mid)
        exact ih lb mid hlb hz hmid_ge h

theorem Dex_nonneg : ∀ x, 0 ≤ Dex x := by
  intro x
  unfold Dex
  split <;> norm_num

/-- Evaluation of the normalizer on `Dex`: `D 0 = 1/1000`, so the grid search
starts at `1/500` where `Dex` already vanishes, and the bisection interval
`[0, 1/500]` is already within tolerance. -/
theorem Dex_run : getScaleAndMaxW Dex 20 20 = .ok (some (1000, 1 / 500)) := by
  have hg : gridSearch Dex 20 (Dex 0 * 2) = some (1 / 500) := by
    norm_num [gridSearch, Dex]
  have hb : bisect Dex 20 0 (1 / 500) = some (1 / 500) := by
    rw [bisect]; norm_num
  simp only [getScaleAndMaxW, hg, hb]
  norm_num [Dex]

/-- C1.  `get_scale_and_max_w` fails fatally when `D 0 = 0`; otherwise a
returned pair has `scale = 1 / D 0` and a `max_w` obtained by grid-searching
upward from `D 0 * 2` in unit steps to the first zero of `D`, then bisecting
between the lower bound `0` (where `D` is nonzero) and that first zero bound
until the interval width is at most `1/100`. -/
theorem getScaleAndMaxW_correct (D : ℚ → ℚ) (fg fb : Nat) :
    (D 0 = 0 → ∃ msg, getScaleAndMaxW D fg fb = .error msg) ∧
    (∀ s m : ℚ, getScaleAndMaxW D fg fb = .ok (some (s, m)) →
      s = 1 / D 0 ∧
      ∃ ub : ℚ,
        (∃ k : Nat, k < fg ∧ ub = D 0 * 2 + k ∧ D (D 0 * 2 + k) = 0 ∧
          ∀ j : Nat, j < k → D (D 0 * 2 + j) ≠ 0) ∧
        bisect D fb 0 ub = some m) := by
  constructor
  · intro h0
    exact ⟨"Cross section at w = 0 is empty, something is wrong.",
      by rw [getScaleAndMaxW, if_pos h0]⟩
  · intro s m h
    simp only [getScaleAndMaxW] at h
    split at h
    · simp at h
    · split at h
      · simp at h
      · rename_i ub hg
        split at h
        · simp at h
        · rename_i mw hb
          simp only [Except.ok.injEq, Option.some.injEq, Prod.mk.injEq] at h
          obtain ⟨hs, hm⟩ := h
          refine ⟨hs.symm, ub, ?_, by rw [hb, hm]⟩
          obtain ⟨k, hk, hub, hDk, hmin⟩ := gridSearch_spec D fg _ ub hg
          exact ⟨k, hk, hub, hDk, hmin⟩

/-- Witness for C1 on the concrete extent function `Dex`. -/
theorem getScaleAndMaxW_correct_witness :
    getScaleAndMaxW Dex 20 20 = .ok (some (1000, 1 / 500)) ∧
    ((1000 : ℚ) = 1 / Dex 0 ∧
      ∃ ub : ℚ,
        (∃ k : Nat, k < 20 ∧ ub = Dex 0 * 2 + k ∧ Dex (Dex 0 * 2 + k) = 0 ∧
          ∀ j : Nat, j < k → Dex (Dex 0 * 2 + j) ≠ 0) ∧
        bisect Dex 20 0 ub = some (1 / 500)) :=
  ⟨Dex_run, (getScaleAndMaxW_correct Dex 20 20).2 1000 (1 / 500) Dex_run⟩

/-- C10.  Throughout the search the upper bound has measured extent zero and
the lower bound positive extent; consequently, for nonnegative `D` with
`D 0 ≠ 0`, the returned `max_w` satisfies `D max_w = 0` and lies within
`1/100` above a point of positive extent. -/
theorem getScaleAndMaxW_invariant (D : ℚ → ℚ) (hD : ∀ x, 0 ≤ D x)
    (fg fb : Nat) (s m : ℚ)
    (h : getScaleAndMaxW D fg fb = .ok (some (s, m))) :
    0 < D 0 ∧ D m = 0 ∧ ∃ l : ℚ, 0 ≤ l ∧ 0 < D l ∧ l ≤ m ∧ m - l ≤ 1 / 100 := by
  simp only [getScaleAndMaxW] at h
  split at h
  · simp at h
  · rename_i h0
    have hpos : 0 < D 0 := lt_of_le_of_ne (hD 0) (Ne.symm h0)
    refine ⟨hpos, ?_⟩
    split at h
    · simp at h
    · rename_i ub hg
      split at h
      · simp at h
      · rename_i mw hb
        simp only [Except.ok.injEq, Option.some.injEq, Prod.mk.injEq] at h
        obtain ⟨_, hm⟩ := h
        subst hm
        obtain ⟨k, _, hub, hDk, _⟩ := gridSearch_spec D fg _ ub hg
        have hub0 : D ub = 0 := by rw [hub]; exact hDk
        have hkc : (0 : ℚ) ≤ (k : ℚ) := Nat.cast_nonneg k
        have hubge : (0 : ℚ) ≤ ub := by rw [hub]; linarith
        obtain ⟨h1, l, hl0, hl1, hl2, hl3⟩ :=
          bisect_spec D hD fb 0 ub mw hpos hub0 hubge hb
        exact ⟨h1, l, hl0, hl1, hl2, hl3⟩

/-- Witness for C10 on the concrete extent function `Dex`. -/
theorem getScaleAndMaxW_invariant_witness :
    0 < Dex 0 ∧ Dex (1 / 500) = 0 ∧
      ∃ l : ℚ, 0 ≤ l ∧ 0 < Dex l ∧ l ≤ 1 / 500 ∧ 1 / 500 - l ≤ 1 / 100 :=
  getScaleAndMaxW_invariant Dex Dex_nonneg 20 20 1000 (1 / 500) Dex_run

theorem rotX_zero : rotX 0 = id := by
  funext p
  simp [rotX]

theorem rotY_zero : rotY 0 = id := by
  funext p
  simp [rotY]

theorem scaleX_one : scaleX 1 = id := by
  funext p
  simp [scaleX]

theorem translX_zero : translX 0 = id := by
  funext p
  simp [translX]

/-- The alignment rotation: rotating a z-axis cylinder by `π/2` about the
x-axis yields the corresponding cylinder about the y-axis. -/
theorem rotX_pi_div_two_image (h r : ℝ) :
    rotX (Real.pi / 2) '' cylinderZ h r =
      {p : Pt | p.1 ^ 2 + p.2.2 ^ 2 ≤ r ^ 2 ∧ |p.2.1| ≤ h / 2} := by
  ext ⟨x, y, z⟩
  simp only [Set.mem_image, Set.mem_setOf_eq, cylinderZ, rotX,
    Real.cos_pi_div_two, Real.sin_pi_div_two, Prod.mk.injEq, Prod.exists,
    zero_mul, one_mul, zero_sub, add_zero, zero_add, mul_zero, sub_zero]
  constructor
  · rintro ⟨a, b, c, ⟨h1, h2⟩, e1, e2, e3⟩
    subst e1
    have hy : y = -c := e2.symm
    have hz : z = b := e3.symm
    subst hy
    subst hz
    exact ⟨h1, by rwa [abs_neg]⟩
  · rintro ⟨h1, h2⟩
    exact ⟨x, z, -y, ⟨h1, by rwa [abs_neg]⟩, rfl, by ring, by ring⟩

/-- C3.  In the south-pole case `|zenith/2 - π/2| < ε`, the cross-section is
the slab of half-thickness `√(1-w²)` about the origin along the symmetry axis
when `|w| < 1`, and empty when `|w| ≥ 1`. -/
theorem createCycloplane_southPole (w zenith azimuth : ℝ)
    (h : |zenith / 2 - Real.pi / 2| < EPSILON) :
    (|w| < 1 → createCycloplane w zenith azimuth = slab w) ∧
    (1 ≤ |w| → createCycloplane w zenith azimuth = ∅) := by
  have hset : createCycloplane w zenith azimuth = createSouthPoleCycloplane w := by
    ext p
    simp only [createCycloplane, Set.mem_setOf_eq]
    constructor
    · rintro (⟨_, hp⟩ | ⟨hn, _⟩)
      · exact hp
      · exact absurd h hn
    · intro hp
      exact Or.inl ⟨h, hp⟩
  constructor
  · intro hw
    rw [hset]
    ext p
    simp only [createSouthPoleCycloplane, Set.mem_setOf_eq]
    rw [rotX_pi_div_two_image]
    have h2 : 2 * Real.sqrt (1 - w * w) / 2 = Real.sqrt (1 - w * w) := by ring
    simp [hw, slab, h2]
  · intro hw
    rw [hset]
    ext p
    simp only [createSouthPoleCycloplane, Set.mem_setOf_eq,
      Set.mem_empty_iff_false, iff_false, not_and]
    intro h1
    exact absurd h1 (not_lt.mpr hw)

/-- Witness for C3: the cycloplane at `zenith = π`, `azimuth = 0`, `w = 0`. -/
theorem createCycloplane_southPole_witness :
    |Real.pi / 2 - Real.pi / 2| < EPSILON ∧
      ((|(0 : ℝ)| < 1 → createCycloplane 0 Real.pi 0 = slab 0) ∧
       (1 ≤ |(0 : ℝ)| → createCycloplane 0 Real.pi 0 = ∅)) := by
  have h : |Real.pi / 2 - Real.pi / 2| < EPSILON := by
    rw [sub_self, abs_zero, EPSILON]
    norm_num
  exact ⟨h, createCycloplane_southPole 0 Real.pi 0 h⟩

/-- C2 (corrected).  In the generic case the base primitive is the unit-radius
cylinder *along* the symmetry axis; the four transforms of §4.2 are then
applied in the stated order, the `φ` rotation last. -/
theorem createCycloplane_generic (w zenith azimuth : ℝ)
    (h : ¬ |zenith / 2 - Real.pi / 2| < EPSILON) :
    createCycloplane w zenith azimuth =
      rotY azimuth ''
        (rotX (-(zenith / 2)) ''
          (translX (w * Real.tan (zenith / 2)) ''
            (scaleX (1 / Real.cos (zenith / 2)) '' cylinderAlongY))) := by
  have hbase : rotX (Real.pi / 2) '' cylinderZ LARGE 1 = cylinderAlongY := by
    rw [rotX_pi_div_two_image]
    simp [cylinderAlongY]
  ext p
  simp only [createCycloplane, Set.mem_setOf_eq]
  rw [hbase]
  constructor
  · rintro (⟨hc, _⟩ | ⟨_, hp⟩)
    · exact absurd hc h
    · exact hp
  · intro hp
    exact Or.inr ⟨h, hp⟩

/-- Witness for C2's corrected statement: the north-pole cycloplane
`zenith = 0`, `azimuth = 0`, `w = 0`. -/
theorem createCycloplane_generic_witness :
    ¬ |(0 : ℝ) / 2 - Real.pi / 2| < EPSILON ∧
      createCycloplane 0 0 0 =
        rotY 0 ''
          (rotX (-((0 : ℝ) / 2)) ''
            (translX (0 * Real.tan ((0 : ℝ) / 2)) ''
              (scaleX (1 / Real.cos ((0 : ℝ) / 2)) '' cylinderAlongY))) := by
  have hpi : (3 : ℝ) < Real.pi := Real.pi_gt_three
  have habs : |(0 : ℝ) / 2 - Real.pi / 2| = Real.pi / 2 := by
    rw [zero_div, zero_sub, abs_neg, abs_of_pos (by linarith)]
  have hgen : ¬ |(0 : ℝ) / 2 - Real.pi / 2| < EPSILON := by
    rw [not_lt, habs, EPSILON]
    linarith
  exact ⟨hgen, createCycloplane_generic 0 0 0 hgen⟩

/-- C2's counterexample: at `zenith = 0`, `azimuth = 0`, `w = 0` the code's
cross-section is the unit cylinder about the symmetry axis (it contains the
point `(0, 50, 0)` far along that axis), not the transverse cylinder the spec
sentence describes (which does not contain that point). -/
theorem createCycloplane_not_transverse :
    createCycloplane 0 0 0 ≠ specTransverseCycloplane 0 0 0 := by
  have hpi : (3 : ℝ) < Real.pi := Real.pi_gt_three
  have habs : |(0 : ℝ) / 2 - Real.pi / 2| = Real.pi / 2 := by
    rw [zero_div, zero_sub, abs_neg, abs_of_pos (by linarith)]
  have hgen : ¬ |(0 : ℝ) / 2 - Real.pi / 2| < EPSILON := by
    rw [not_lt, habs, EPSILON]
    linarith
  have hid : ∀ S : Set Pt,
      rotY 0 '' (rotX (-((0 : ℝ) / 2)) ''
        (translX (0 * Real.tan ((0 : ℝ) / 2)) ''
          (scaleX (1 / Real.cos ((0 : ℝ) / 2)) '' S))) = S := by
    intro S
    simp only [zero_div, neg_zero, zero_mul, Real.cos_zero, div_one,
      rotX_zero, rotY_zero, translX_zero, scaleX_one, Set.image_id]
  have hmem : ((0 : ℝ), (50 : ℝ), (0 : ℝ)) ∈ createCycloplane 0 0 0 := by
    simp only [createCycloplane, Set.mem_setOf_eq]
    refine Or.inr ⟨hgen, ?_⟩
    rw [hid, rotX_pi_div_two_image]
    constructor
    · norm_num
    · rw [LARGE]
      norm_num
  have hnot : ((0 : ℝ), (50 : ℝ), (0 : ℝ)) ∉ specTransverseCycloplane 0 0 0 := by
    rw [specTransverseCycloplane, hid]
    simp only [cylinderZ, Set.mem_setOf_eq, not_and]
    intro h1
    exfalso
    norm_num at h1
  intro hcontra
  rw [hcontra] at hmem
  exact hnot hmem

/-- Unfolding equation for `traverseFold` on a cons cell. -/
theorem traverseFold_cons (k : Kernel S E) (w : ℚ)
    (step : S → S → Except (TErr E) S) (acc : Option S) (c : Node)
    (cs : List Node) :
    traverseFold k w step acc (c :: cs) =
      match traverse k w c with
      | .error e => .error e
      | .ok r =>
        match foldOperands step acc (bubble r) with
        | .error e => .error e
        | .ok acc2 => traverseFold k w step acc2 cs := by
  rw [traverseFold]

/-- Folding over children that each yield a single part is the same as
folding over those parts directly. -/
theorem traverseFold_singles (k : Kernel S E) (w : ℚ)
    (step : S → S → Except (TErr E) S) (acc : Option S)
    (nodes : List Node) (sols : List S)
    (h : List.Forall₂ (fun nd s => traverse k w nd = .ok (.single s)) nodes sols) :
    traverseFold k w step acc nodes = foldOperands step acc (sols.map some) := by
  induction h generalizing acc with
  | nil => simp only [traverseFold, foldOperands, List.map_nil]
  | @cons nd s nds ss hnd _ ih =>
    rw [traverseFold_cons, hnd]
    dsimp only [bubble]
    cases acc with
    | none =>
      simp only [foldOperands, List.map_cons]
      exact ih (some s)
    | some r =>
      simp only [foldOperands, List.map_cons]
      cases hst : step r s with
      | error e => rfl
      | ok r2 => exact ih (some r2)

/-- C7 (corrected).  An unrecognized node tag raises
`ValueError(f"Invalid node type ...")`; a Boolean node with an empty operand
list does NOT raise — its fold body never runs and the Python `None` result
is returned. -/
theorem traverse_malformed (k : Kernel S E) (w : ℚ) :
    (∀ tag, traverse k w (.unknown tag) = .error (.invalidNode tag)) ∧
    traverse k w (.intersection []) = .ok .null ∧
    traverse k w (.difference []) = .ok .null ∧
    traverse k w (.union []) = .ok .null :=
  ⟨fun _ => rfl, rfl, rfl, rfl⟩

/-- C7's counterexample: realizing an `intersection` with an empty operand
list on a concrete kernel returns the `None` result, not an error. -/
theorem traverse_emptyOperands_null :
    traverse CKernel 1 (Node.intersection []) = .ok TRes.null := rfl

/-- C4.  A kernel failure inside `safe_intersect` is recovered as an empty
workplane; `safe_cut`/`safe_union` pass a kernel failure on non-empty
operands through; a 3D-hull failure on the soft path's sliced point set
yields an empty (`None`) cross-section. -/
theorem kernelFailureRecovery :
    (∀ (S E : Type) (k : Kernel S E) (a b : S) (e : E),
        k.intersectK a b = .error e → safeIntersect k a b = k.emptyW) ∧
    (∀ (S E : Type) (k : Kernel S E) (a b : S) (e : E),
        k.isEmpty a = false → k.isEmpty b = false →
          k.cutK a b = .error e → safeCut k a b = .error e) ∧
    (∀ (S E : Type) (k : Kernel S E) (a b : S) (e : E),
        k.isEmpty a = false → k.isEmpty b = false →
          k.unionK a b = .error e → safeUnion k a b = .error e) ∧
    (∀ (H HE : Type) (hull3d : List Pt3Q → Except HE H) (hull : Hull4)
        (w : ℚ) (e : HE),
        hull3d ((collectCrossSectionPoints hull w).map rotYZ) = .error e →
          getCrossSection hull3d hull w = none) := by
  refine ⟨?_, ?_, ?_, ?_⟩
  · intro S E k a b e h
    unfold safeIntersect
    rw [h]
  · intro S E k a b e ha hb h
    unfold safeCut
    rw [ha, hb]
    simpa using h
  · intro S E k a b e ha hb h
    unfold safeUnion
    rw [ha, hb]
    simpa using h
  · intro H HE hull3d hull w e h
    unfold getCrossSection
    by_cases hlen : (collectCrossSectionPoints hull w).length < 4
    · rw [if_pos hlen]
    · rw [if_neg hlen, h]

/-- Witness for C4 on the always-failing kernel and the degenerate hull. -/
theorem kernelFailureRecovery_witness :
    FKernel.intersectK [1] [2] = .error 9 ∧
    safeIntersect FKernel [1] [2] = FKernel.emptyW ∧
    FKernel.isEmpty [1] = false ∧ FKernel.isEmpty [2] = false ∧
    FKernel.cutK [1] [2] = .error 7 ∧ safeCut FKernel [1] [2] = .error 7 ∧
    FKernel.unionK [1] [2] = .error 8 ∧ safeUnion FKernel [1] [2] = .error 8 ∧
    hull3dFail ((collectCrossSectionPoints hullEmpty 0).map rotYZ) = .error 0 ∧
    getCrossSection hull3dFail hullEmpty 0 = none := by
  obtain ⟨h1, h2, h3, h4⟩ := kernelFailureRecovery
  exact ⟨rfl, h1 _ _ FKernel [1] [2] 9 rfl, rfl, rfl, rfl,
    h2 _ _ FKernel [1] [2] 7 rfl rfl rfl, rfl,
    h3 _ _ FKernel [1] [2] 8 rfl rfl rfl, rfl,
    h4 Unit Nat hull3dFail hullEmpty 0 0 rfl⟩

/-- C5.  Empty-operand algebra of the safe Boolean wrappers: cutting the
empty workplane from a non-empty `A` returns `A` itself; intersecting with
an empty first operand yields empty (the kernel raises there and
`safe_intersect` recovers); unioning empty with `A` returns `A`. -/
theorem emptyOperandAlgebra (S E : Type) (k : Kernel S E)
    (hke : k.isEmpty k.emptyW = true)
    (hfail : ∀ b, ∃ e, k.intersectK k.emptyW b = .error e) :
    (∀ a, k.isEmpty a = false → safeCut k a k.emptyW = .ok a) ∧
    (∀ b, safeIntersect k k.emptyW b = k.emptyW) ∧
    (∀ b, safeUnion k k.emptyW b = .ok b) := by
  refine ⟨?_, ?_, ?_⟩
  · intro a ha
    unfold safeCut
    rw [ha, hke]
    simp
  · intro b
    obtain ⟨e, he⟩ := hfail b
    unfold safeIntersect
    rw [he]
  · intro b
    unfold safeUnion
    rw [hke]
    simp

/-- Witness for C5 on the concrete kernel. -/
theorem emptyOperandAlgebra_witness :
    safeCut CKernel [1] CKernel.emptyW = .ok [1] ∧
    safeIntersect CKernel CKernel.emptyW [2] = CKernel.emptyW ∧
    safeUnion CKernel CKernel.emptyW [3] = .ok [3] := by
  obtain ⟨h1, h2, h3⟩ :=
    emptyOperandAlgebra (List Nat) Nat CKernel rfl (fun b => ⟨0, rfl⟩)
  exact ⟨h1 [1] rfl, h2 [2], h3 [3]⟩

/-- C8.  `rotated_copies` evaluates its operand once and returns the list of
`n` copies, the `i`-th rotated by `i·360/n` degrees about the symmetry axis;
a parent `union` over that list realizes exactly as a `union` of `n`
children yielding the individually rotated copies. -/
theorem rotatedCopies_correct (k : Kernel S E) (w : ℚ) (op : Node) (n : Nat)
    (p : S) (hop : traverse k w op = .ok (.single p)) (ds : List Node)
    (hds : List.Forall₂ (fun nd s => traverse k w nd = .ok (.single s)) ds
      (makeRotatedCopies k p n)) :
    traverse k w (.rotatedCopies op n) =
      .ok (.multiple (makeRotatedCopies k p n)) ∧
    (makeRotatedCopies k p n).length = n ∧
    (∀ i : Nat, i < n →
      (makeRotatedCopies k p n).getD i p =
        k.rotYdeg ((i : ℚ) * 360 / (n : ℚ)) p) ∧
    traverse k w (.union [.rotatedCopies op n]) = traverse k w (.union ds) := by
  have h1 : traverse k w (.rotatedCopies op n) =
      .ok (.multiple (makeRotatedCopies k p n)) := by
    simp only [traverse]
    rw [hop]
  refine ⟨h1, by unfold makeRotatedCopies; rw [List.length_map, List.length_range],
    ?_, ?_⟩
  · intro i hi
    unfold makeRotatedCopies
    have hlen : i <
        ((List.range n).map
          (fun j : Nat => k.rotYdeg ((j : ℚ) * 360 / (n : ℚ)) p)).length := by
      rw [List.length_map, List.length_range]
      exact hi
    rw [List.getD_eq_getElem _ _ hlen, List.getElem_map, List.getElem_range]
  · simp only [traverse]
    congr 1
    rw [traverseFold_singles k w _ none ds _ hds]
    rw [traverseFold_cons, h1]
    dsimp only [bubble]
    cases hfo : foldOperands (fun a b => (safeUnion k a b).mapError TErr.kernel)
        none ((makeRotatedCopies k p n).map some) with
    | error e => rfl
    | ok acc2 => rfl

/-- Witness for C8 on the concrete kernel: a two-fold rotated copy of a
cycloplane under a union. -/
theorem rotatedCopies_correct_witness :
    traverse CKernel 1 (Node.rotatedCopies (Node.cycloplane 0 0) 2) =
      .ok (.multiple (makeRotatedCopies CKernel [1] 2)) ∧
    (makeRotatedCopies CKernel [1] 2).length = 2 ∧
    (makeRotatedCopies CKernel [1] 2).getD 1 [1] =
      CKernel.rotYdeg ((1 : ℚ) * 360 / (2 : ℚ)) [1] ∧
    traverse CKernel 1 (Node.union [Node.rotatedCopies (Node.cycloplane 0 0) 2]) =
      traverse CKernel 1 (Node.union [Node.cycloplane 0 0, Node.cycloplane 0 0]) := by
  have hds : List.Forall₂
      (fun nd s => traverse CKernel 1 nd = .ok (.single s))
      [Node.cycloplane 0 0, Node.cycloplane 0 0]
      (makeRotatedCopies CKernel [1] 2) := by
    have hm : makeRotatedCopies CKernel [1] 2 = [[1], [1]] := rfl
    rw [hm]
    exact .cons rfl (.cons rfl .nil)
  obtain ⟨h1, h2, h3, h4⟩ :=
    rotatedCopies_correct CKernel 1 (Node.cycloplane 0 0) 2 [1] rfl _ hds
  exact ⟨h1, h2, h3 1 (by norm_num), h4⟩

/-- C9.  `Realizer.__init__` replaces any `|w| ≤ 1e-3` — including `w = 0` —
by `w = 1e-3`, so the cross-section reported for such `w` is the one at
`w = 1e-3`. -/
theorem makeCrossSection_clamp (k : Kernel S E) (tree : Node) (w : ℚ)
    (h : |w| ≤ 1 / 1000) :
    makePolytwisterCrossSection k tree w =
      makePolytwisterCrossSection k tree (1 / 1000) := by
  unfold makePolytwisterCrossSection realizerW
  rw [if_neg (not_lt.mpr h)]
  rw [if_neg (by
    rw [not_lt, abs_of_pos (show (0 : ℚ) < 1 / 1000 by norm_num)])]

/-- Witness for C9: the cross-section query at `w = 0` on the concrete
kernel. -/
theorem makeCrossSection_clamp_witness :
    |(0 : ℚ)| ≤ 1 / 1000 ∧
      makePolytwisterCrossSection CKernel (Node.cycloplane 0 0) 0 =
        makePolytwisterCrossSection CKernel (Node.cycloplane 0 0) (1 / 1000) :=
  ⟨by norm_num,
    makeCrossSection_clamp CKernel (Node.cycloplane 0 0) 0 (by norm_num)⟩

/-- Membership in the per-edge emission rule. -/
theorem edgePoints_mem (w : ℚ) (p1 p2 : Pt4) (q : Pt3Q) :
    q ∈ edgePoints w p1 p2 ↔
      ((wCoord p1 ≤ w ∧ w < wCoord p2) ∨ (wCoord p2 ≤ w ∧ w < wCoord p1)) ∧
      ((allclose (wCoord p1) (wCoord p2) = true ∧
          (q = proj3 p1 ∨ q = proj3 p2)) ∨
       (allclose (wCoord p1) (wCoord p2) = false ∧
          q = proj3 (lerp4 p1 p2
            ((w - wCoord p1) / (wCoord p2 - wCoord p1))))) := by
  by_cases hbr : (wCoord p1 ≤ w ∧ w < wCoord p2) ∨ (wCoord p2 ≤ w ∧ w < wCoord p1)
  · by_cases hac : allclose (wCoord p1) (wCoord p2) = true
    · simp [edgePoints, hbr, hac]
    · have hacf : allclose (wCoord p1) (wCoord p2) = false :=
        eq_false_of_ne_true hac
      simp [edgePoints, hbr, hacf]
  · simp [edgePoints, hbr]

/-- C6.  The soft slicer emits a point exactly when some edge of some
tetrahedral simplex brackets `w` under the half-open rule, emitting the two
projected endpoints in the coplanar (within-tolerance) case and the
projected interpolation otherwise; fewer than 4 collected points means an
empty cross-section. -/
theorem softSlice_correct :
    (∀ (hull : Hull4) (w : ℚ) (q : Pt3Q),
      q ∈ collectCrossSectionPoints hull w ↔
        ∃ s ∈ hull.simplices, ∃ ij ∈ edgePairs,
          ((wCoord (simplexVertex hull.points s ij.1) ≤ w ∧
              w < wCoord (simplexVertex hull.points s ij.2)) ∨
           (wCoord (simplexVertex hull.points s ij.2) ≤ w ∧
              w < wCoord (simplexVertex hull.points s ij.1))) ∧
          ((allclose (wCoord (simplexVertex hull.points s ij.1))
              (wCoord (simplexVertex hull.points s ij.2)) = true ∧
            (q = proj3 (simplexVertex hull.points s ij.1) ∨
             q = proj3 (simplexVertex hull.points s ij.2))) ∨
           (allclose (wCoord (simplexVertex hull.points s ij.1))
              (wCoord (simplexVertex hull.points s ij.2)) = false ∧
            q = proj3 (lerp4 (simplexVertex hull.points s ij.1)
              (simplexVertex hull.points s ij.2)
              ((w - wCoord (simplexVertex hull.points s ij.1)) /
               (wCoord (simplexVertex hull.points s ij.2) -
                wCoord (simplexVertex hull.points s ij.1))))))) ∧
    (∀ (hull : Hull4) (w : ℚ) (H HE : Type)
        (hull3d : List Pt3Q → Except HE H),
      (collectCrossSectionPoints hull w).length < 4 →
        getCrossSection hull3d hull w = none) := by
  constructor
  · intro hull w q
    unfold collectCrossSectionPoints
    simp only [List.mem_flatMap, edgePoints_mem]
  · intro hull w H HE hull3d hlen
    unfold getCrossSection
    rw [if_pos hlen]

/-- Witness for C6: the empty hull collects no points, hence an empty
cross-section. -/
theorem softSlice_correct_witness :
    (collectCrossSectionPoints hullEmpty 0).length < 4 ∧
      getCrossSection hull3dFail hullEmpty 0 = none :=
  ⟨by decide, softSlice_correct.2 hullEmpty 0 Unit Nat hull3dFail (by decide)⟩

end Polytwisters
